import Mathlib

/-!
Verification development for the Precision N-Back trial-generation and
adaptive-assessment engine.

The repository contains several snapshots (variants) of the engine:
* the current engine component (the NBackGame found inside src/types.ts,
  with composite hue triples, per-modality hit counters, a
  getValidNValues-based variable-lag sampler and a feedback flag), and
* a legacy engine component (src/components/NBackGame.tsx, with a single
  hue, a scalar hit counter and a uniform variable-lag sampler).
Both are embedded below where a claim refers to them.

Numbers: all JavaScript floating point quantities are embedded as rationals.
The JavaScript remainder operator x % m (an fmod, truncating toward zero) is
embedded as jsMod.  Math.random() draws are passed in explicitly as rational
parameters (or as the Bool/Fin outcome of the comparison or floor the source
immediately applies to them).  The transcendental functions Math.exp and
Math.pow(2, _), whose exact values no claim depends on, are passed in as an
abstract RealOps record.
-/

namespace NBack

/-- Truncation toward zero of a rational, matching the rounding used by the
JavaScript remainder operator. -/
def ratTrunc (q : ℚ) : ℤ :=
  if 0 ≤ q then Rat.floor q else -(Rat.floor (-q))

/-- JavaScript remainder a % b (fmod): a - b * trunc (a / b). -/
def jsMod (a b : ℚ) : ℚ :=
  a - b * (ratTrunc (a / b) : ℚ)

/-- The four stimulus modalities. -/
inductive Modality
  | spatial
  | audio
  | color
  | shape
deriving DecidableEq

/-- The per-modality isMatch record of an NBackEvent. -/
structure MatchFlags where
  audio : Bool
  spatial : Bool
  color : Bool
  shape : Bool
deriving DecidableEq

def MatchFlags.get (f : MatchFlags) : Modality → Bool
  | .spatial => f.spatial
  | .audio => f.audio
  | .color => f.color
  | .shape => f.shape

def MatchFlags.allFalse : MatchFlags := ⟨false, false, false, false⟩

/-- The ordered hue triple of the composite color stimulus
(hues: [number, number, number] in the source). -/
structure Hues3 where
  h0 : ℚ
  h1 : ℚ
  h2 : ℚ
deriving DecidableEq

def Hues3.get (h : Hues3) : Fin 3 → ℚ
  | 0 => h.h0
  | 1 => h.h1
  | 2 => h.h2

def Hues3.set (h : Hues3) : Fin 3 → ℚ → Hues3
  | 0, v => { h with h0 := v }
  | 1, v => { h with h1 := v }
  | 2, v => { h with h2 := v }

def Hues3.sum (h : Hues3) : ℚ := h.h0 + h.h1 + h.h2

/-- Ascending sort of three values, embedding hues.sort((a, b) => a - b). -/
def sort3 (a b c : ℚ) : Hues3 :=
  if a ≤ b then
    if b ≤ c then ⟨a, b, c⟩
    else if a ≤ c then ⟨a, c, b⟩
    else ⟨c, a, b⟩
  else
    if a ≤ c then ⟨b, a, c⟩
    else if b ≤ c then ⟨b, c, a⟩
    else ⟨c, b, a⟩

/-- One trial event of the current engine (NBackEvent in src/types.ts, the
variant with a hue triple).  The shape is its list of vertex radii. -/
structure NBackEvent where
  id : ℕ
  row : ℕ
  col : ℕ
  audio : ℚ
  hues : Hues3
  shape : List ℚ
  isMatch : MatchFlags
  lureType : Option Modality
  n : ℕ
deriving DecidableEq

/-- The session configuration (Settings in src/types.ts), restricted to the
fields the engine reads; presentation-only fields (theme, colorPattern,
devMode display) are omitted.  feedbackEnabled and the variable-ISI fields
are read by the current engine component even though the frozen Settings
type of the snapshot does not list them. -/
structure Settings where
  nLevel : ℕ
  matchRate : ℚ
  lureRate : ℚ
  isi : ℚ
  gridRows : ℕ
  gridCols : ℕ
  audioThreshold : ℚ
  colorThreshold : ℚ
  shapeThreshold : ℚ
  totalTrials : ℕ
  ballSize : ℚ
  variableN : Bool
  spatialEnabled : Bool
  audioEnabled : Bool
  colorEnabled : Bool
  shapeEnabled : Bool
  shapeVertices : ℕ
  feedbackEnabled : Bool
  calibrationEnabled : Bool
deriving DecidableEq

/-- Abstract stand-ins for the transcendental library functions the engine
calls: expNat models Math.exp on the natural-number weight rank, pow2 models
Math.pow(2, _) in the audio lure.  No claim depends on their values, so they
are parameters of the embedding. -/
structure RealOps where
  expNat : ℕ → ℚ
  pow2 : ℚ → ℚ

/-- getValidNValues (current engine): the body of the loop
for (i = 2; i <= Math.sqrt(maxN); i++) collecting i and maxN / i for every
divisor i; i <= Math.sqrt(maxN) is embedded as i ≤ Nat.sqrt maxN, and the
exact float division maxN / i (guarded by maxN % i === 0) as natural
division. -/
def divisorCandidates (maxN : ℕ) : List ℕ :=
  ((List.range' 2 (Nat.sqrt maxN - 1)).filter (fun i => maxN % i == 0)).flatMap
    (fun i => [i, maxN / i])

/-- getValidNValues from the current engine: for maxN ≤ 2 the list [1..maxN];
otherwise the integers 1..maxN that are not collected by the divisor loop. -/
def getValidNValues (maxN : ℕ) : List ℕ :=
  if maxN ≤ 2 then List.range' 1 maxN
  else (List.range' 1 maxN).filter (fun i => !(decide (i ∈ divisorCandidates maxN)))

/-- Candidate membership test used in proofs: nontrivial divisors of k are
the divisors other than 1 and k itself. -/
def IsNontrivialDivisor (d k : ℕ) : Prop := d ∣ k ∧ d ≠ 1 ∧ d ≠ k

instance (d k : ℕ) : Decidable (IsNontrivialDivisor d k) := by
  unfold IsNontrivialDivisor; infer_instance

/-- The weighted-index selection loop of the current variable-lag sampler:
cumulative weights are accumulated and the first index whose cumulative
weight exceeds the draw is chosen, defaulting to the last index. -/
def selectWeighted (weights : List ℚ) (random : ℚ) : ℕ :=
  let cums := ((weights.scanl (· + ·) 0).tail)
  let i := cums.findIdx (fun c => decide (random < c))
  if i < weights.length then i else weights.length - 1

/-- The lag chosen for one trial by the current engine: nLevel in fixed mode;
in variable mode an exponentially weighted draw from getValidNValues nLevel,
with the fallback n = 1 when that list is empty and the direct value when it
is a singleton.  The draw random is scaled by the total weight in the
source; the selection outcome is identical when the raw draw is scaled
instead, so the scaled draw is the rnd parameter here. -/
def chooseN (s : Settings) (ops : RealOps) (rnd : ℚ) : ℕ :=
  if s.variableN then
    let valid := getValidNValues s.nLevel
    if valid.length = 0 then 1
    else if valid.length = 1 then valid.headD 1
    else
      let weights := (List.range valid.length).map ops.expNat
      valid.getD (selectWeighted weights rnd) 0
  else s.nLevel

/-- Math.floor(r * len) as a natural index, for the array picks made on a
raw Math.random() draw. -/
def floorIdx (r : ℚ) (len : ℕ) : ℕ := (Rat.floor (r * (len : ℚ))).toNat

/-- generateBaseShape: one radius 0.6 + random() * 0.4 per vertex. -/
def generateBaseShape (numVertices : ℕ) (draw : ℕ → ℚ) : List ℚ :=
  (List.range numVertices).map (fun i => 3 / 5 + draw i * (2 / 5))

/-- generateRandomHues: a base hue and an interval in [15, 35), giving the
triple (base - interval + 360) % 360, base, (base + interval) % 360 sorted
ascending. -/
def generateRandomHues (baseDraw intervalDraw : ℚ) : Hues3 :=
  let baseHue := baseDraw * 360
  let interval := 15 + intervalDraw * 20
  sort3 (jsMod (baseHue - interval + 360) 360) baseHue (jsMod (baseHue + interval) 360)

/-- The color lure perturbation of the current engine (the color case of
generateNextEvent): two distinct slots are drawn by splicing from [0, 1, 2],
the first is shifted by +-threshold and the second by the opposite amount,
each slot being reduced by (value + 360) % 360.  The two Fin draws are the
floor outcomes of the splice picks; dirPos is the Math.random() < 0.5
outcome choosing the sign. -/
def colorLureGame (h : Hues3) (threshold : ℚ) (dirPos : Bool)
    (pick1 : Fin 3) (pick2 : Fin 2) : Hues3 :=
  let idx1 : Fin 3 := pick1
  let remaining : List (Fin 3) := (List.finRange 3).eraseIdx pick1.val
  let idx2 : Fin 3 := remaining.getD pick2.val idx1
  let shiftAmount := if dirPos then threshold else -threshold
  let step1 := h.set idx1 (jsMod (h.get idx1 + shiftAmount + 360) 360)
  step1.set idx2 (jsMod (step1.get idx2 - shiftAmount + 360) 360)

/-- The color lure of the hue-triple calibration variant (generateLure in
src/components/Calibration.tsx): the middle hue is shifted by +threshold and
the last by -threshold, each reduced by (value + 360) % 360. -/
def colorLureCalib (h : Hues3) (threshold : ℚ) : Hues3 :=
  { h with
    h1 := jsMod (h.h1 + threshold + 360) 360
    h2 := jsMod (h.h2 - threshold + 360) 360 }

/-- The active modality list, in the push order of the component effect. -/
def activeModalities (s : Settings) : List Modality :=
  (if s.spatialEnabled then [Modality.spatial] else []) ++
  (if s.audioEnabled then [Modality.audio] else []) ++
  (if s.colorEnabled then [Modality.color] else []) ++
  (if s.shapeEnabled then [Modality.shape] else [])

/-- The per-trial randomness consumed by generateNextEvent, one field per
Math.random() call site (or per comparison/floor outcome of such a call). -/
structure TrialRand where
  nDraw : ℚ
  rowDraw : ℚ
  colDraw : ℚ
  audioDraw : ℚ
  baseHueDraw : ℚ
  intervalDraw : ℚ
  shapeDraw : ℕ → ℚ
  classDraw : Modality → ℚ
  dirPos : Modality → Bool
  spatialPickDraw : ℚ
  colorPick1 : Fin 3
  colorPick2 : Fin 2
  shapeIdxDraw : ℚ

/-- Copy one modality of the target event into the new event verbatim and
mark it as a match (the MATCH branch of generateNextEvent). -/
def setMatchValue (e target : NBackEvent) : Modality → NBackEvent
  | .spatial =>
      { e with row := target.row, col := target.col,
               isMatch := { e.isMatch with spatial := true } }
  | .audio =>
      { e with audio := target.audio,
               isMatch := { e.isMatch with audio := true } }
  | .color =>
      { e with hues := target.hues,
               isMatch := { e.isMatch with color := true } }
  | .shape =>
      { e with shape := target.shape,
               isMatch := { e.isMatch with shape := true } }

/-- The per-modality lure perturbation of generateNextEvent.  Spatial: an
adjacent in-bounds cell, or a no-op when none exists.  Audio: the target
frequency scaled by 2 ^ (+-threshold / 1200).  Color: colorLureGame on the
target hues.  Shape: one vertex radius shifted by +-threshold and clamped
to [0.1, 1.0]. -/
def applyLure (s : Settings) (ops : RealOps) (rand : TrialRand)
    (target e : NBackEvent) : Modality → NBackEvent
  | .spatial =>
      let r : ℤ := target.row
      let c : ℤ := target.col
      let possibleLures : List (ℤ × ℤ) :=
        [(r - 1, c), (r + 1, c), (r, c - 1), (r, c + 1)].filter
          (fun p => decide (0 ≤ p.1 ∧ p.1 < (s.gridRows : ℤ) ∧
                            0 ≤ p.2 ∧ p.2 < (s.gridCols : ℤ)))
      match possibleLures.get? (floorIdx rand.spatialPickDraw possibleLures.length) with
      | some p => { e with row := p.1.toNat, col := p.2.toNat }
      | none => e
  | .audio =>
      let sign : ℚ := if rand.dirPos .audio then 1 else -1
      { e with audio := target.audio * ops.pow2 (sign * s.audioThreshold / 1200) }
  | .color =>
      { e with hues := colorLureGame target.hues s.colorThreshold
                         (rand.dirPos .color) rand.colorPick1 rand.colorPick2 }
  | .shape =>
      let vIndex := floorIdx rand.shapeIdxDraw target.shape.length
      let old := target.shape.getD vIndex 0
      let sign : ℚ := if rand.dirPos .shape then 1 else -1
      { e with shape := target.shape.set vIndex
                 (max (1 / 10) (min 1 (old + sign * s.shapeThreshold))) }

/-- One iteration of the activeModalities.forEach body of generateNextEvent:
depending on the class draw the modality becomes a match, a lure (recording
the lureType for the first lure only), or stays random. -/
def applyModality (s : Settings) (ops : RealOps) (rand : TrialRand)
    (target : NBackEvent) (acc : NBackEvent × Bool) (m : Modality) :
    NBackEvent × Bool :=
  let e := acc.1
  let lureFound := acc.2
  let r := rand.classDraw m
  if r < s.matchRate then
    (setMatchValue e target m, lureFound)
  else if r < s.matchRate + s.lureRate then
    let e1 := if lureFound then e else { e with lureType := some m }
    (applyLure s ops rand target e1 m, true)
  else
    (e, lureFound)

/-- generateNextEvent of the current engine: choose the lag, build the raw
random event, and only once trialNumber ≥ n run the match/lure assignment
against the event n trials back. -/
def generateNextEvent (s : Settings) (ops : RealOps) (rand : TrialRand)
    (history : List NBackEvent) (trialNumber : ℕ) : NBackEvent :=
  let n := chooseN s ops rand.nDraw
  let base : NBackEvent :=
    { id := trialNumber
      row := floorIdx rand.rowDraw s.gridRows
      col := floorIdx rand.colDraw s.gridCols
      audio := 200 + rand.audioDraw * 600
      hues := generateRandomHues rand.baseHueDraw rand.intervalDraw
      shape := generateBaseShape s.shapeVertices rand.shapeDraw
      isMatch := MatchFlags.allFalse
      lureType := none
      n := n }
  if n ≤ trialNumber then
    match history.get? (trialNumber - n) with
    | some target =>
        ((activeModalities s).foldl (applyModality s ops rand target) (base, false)).1
    | none => base
  else base

/-- A natural counter per modality (the shape of the totalMatchesRef record
and of the per-modality hit record of the current engine). -/
structure ModCounts where
  spatial : ℕ
  audio : ℕ
  color : ℕ
  shape : ℕ
deriving DecidableEq

def ModCounts.get (c : ModCounts) : Modality → ℕ
  | .spatial => c.spatial
  | .audio => c.audio
  | .color => c.color
  | .shape => c.shape

def ModCounts.incr (c : ModCounts) : Modality → ModCounts
  | .spatial => { c with spatial := c.spatial + 1 }
  | .audio => { c with audio := c.audio + 1 }
  | .color => { c with color := c.color + 1 }
  | .shape => { c with shape := c.shape + 1 }

/-- The running score of the current engine: per-modality hits, a single
miss counter, and one false-alarm counter per modality. -/
structure Score where
  hits : ModCounts
  misses : ℕ
  audioFalseAlarms : ℕ
  spatialFalseAlarms : ℕ
  colorFalseAlarms : ℕ
  shapeFalseAlarms : ℕ
deriving DecidableEq

/-- The dynamic false-alarm field update score[type + "FalseAlarms"] += 1. -/
def Score.incrFA (sc : Score) : Modality → Score
  | .spatial => { sc with spatialFalseAlarms := sc.spatialFalseAlarms + 1 }
  | .audio => { sc with audioFalseAlarms := sc.audioFalseAlarms + 1 }
  | .color => { sc with colorFalseAlarms := sc.colorFalseAlarms + 1 }
  | .shape => { sc with shapeFalseAlarms := sc.shapeFalseAlarms + 1 }

/-- The mutable session state mirrored by the engine refs: event history,
trial counter, running score, the dedup set of (event id, modality)
responses, and the per-modality presented-match totals. -/
structure GameSt where
  history : List NBackEvent
  trialNumber : ℕ
  score : Score
  respondedTo : List (ℕ × Modality)
  totalMatches : ModCounts
deriving DecidableEq

/-- handleUserResponse of the current engine: ignored before the first
trial, while the current trial is inside its own lag window
(trialNumber ≤ current.n), or when this (trial, modality) pair already has
a recorded response; otherwise credits one hit or one false alarm and
records the response key. -/
def handleUserResponse (st : GameSt) (m : Modality) : GameSt :=
  if st.trialNumber = 0 then st
  else
    match st.history.getLast? with
    | none => st
    | some current =>
      if st.trialNumber ≤ current.n then st
      else if (current.id, m) ∈ st.respondedTo then st
      else
        let score1 :=
          if current.isMatch.get m then
            { st.score with hits := st.score.hits.incr m }
          else st.score.incrFA m
        { st with score := score1, respondedTo := (current.id, m) :: st.respondedTo }

/-- The modalities resolved as misses at the start of a tick: the previous
trial exists, its response window has closed (trialNumber > its lag), it was
a true match for the modality, and no response was recorded. -/
def missEligible (s : Settings) (st : GameSt) : List Modality :=
  if 0 < st.trialNumber then
    match st.history.getLast? with
    | some lastEvent =>
        if lastEvent.n < st.trialNumber then
          (activeModalities s).filter
            (fun m => lastEvent.isMatch.get m &&
                      !(decide ((lastEvent.id, m) ∈ st.respondedTo)))
        else []
    | none => []
  else []

/-- The totalMatchesRef increments performed while generating an event: the
ref is bumped exactly when a modality isMatch flag is set. -/
def bumpMatches (c : ModCounts) (e : NBackEvent) : ModCounts :=
  { spatial := c.spatial + (if e.isMatch.spatial then 1 else 0)
    audio := c.audio + (if e.isMatch.audio then 1 else 0)
    color := c.color + (if e.isMatch.color then 1 else 0)
    shape := c.shape + (if e.isMatch.shape then 1 else 0) }

/-- The outcome of one scheduler tick: either the session ended (with the
final score and match totals passed to onGameEnd) or the next session
state. -/
inductive TickResult
  | ended (finalScore : Score) (totalMatches : ModCounts)
  | next (st : GameSt)
deriving DecidableEq

def TickResult.isNext : TickResult → Bool
  | .next _ => true
  | .ended _ _ => false

def TickResult.missesOf : TickResult → ℕ
  | .next st => st.score.misses
  | .ended sc _ => sc.misses

/-- runTrial of the current engine: resolve unanswered matches of the
previous trial as misses (only when feedbackEnabled — the miss block is
inside if (feedbackEnabled) in the source), end the session once the trial
count reaches totalTrials, and otherwise generate and append the next
event. -/
def runTrial (s : Settings) (ops : RealOps) (rand : TrialRand) (st : GameSt) :
    TickResult :=
  let missed := if s.feedbackEnabled then missEligible s st else []
  let st1 :=
    { st with score := { st.score with misses := st.score.misses + missed.length } }
  if s.totalTrials ≤ st.trialNumber then
    .ended st1.score st1.totalMatches
  else
    let e := generateNextEvent s ops rand st.history st.trialNumber
    .next { st1 with
            history := st1.history ++ [e]
            trialNumber := st1.trialNumber + 1
            totalMatches := bumpMatches st1.totalMatches e }

/-- The variable-lag choice of the legacy engine
(src/components/NBackGame.tsx): a uniform draw 1 + floor(random * nLevel),
bumped cyclically when it would repeat the previous trial lag.  prevN is
history[trialNumber - 1].n. -/
def legacyChooseN (nLevel : ℕ) (rnd : ℚ) (trialNumber : ℕ) (prevN : ℕ) : ℕ :=
  let n := 1 + (Rat.floor (rnd * (nLevel : ℚ))).toNat
  if 0 < trialNumber ∧ n = prevN ∧ 1 < nLevel then (n % nLevel) + 1 else n

/-- The Score shape consumed by the session-end handlers in src/App.tsx
(a single scalar hit counter, as in the frozen Score type of the
snapshot). -/
structure AppScore where
  hits : ℕ
  misses : ℕ
  audioFalseAlarms : ℕ
  spatialFalseAlarms : ℕ
  colorFalseAlarms : ℕ
  shapeFalseAlarms : ℕ
deriving DecidableEq

def AppScore.totalFalseAlarms (sc : AppScore) : ℕ :=
  sc.spatialFalseAlarms + sc.audioFalseAlarms + sc.colorFalseAlarms + sc.shapeFalseAlarms

/-- correctRejections of the current handleGameEnd:
max(0, (totalTrials - totalMatches) - totalFalseAlarms), computed in ℤ since
the JavaScript subtraction may go negative before the clamp. -/
def correctRejections (totalTrials totalMatches : ℕ) (sc : AppScore) : ℤ :=
  max 0 (((totalTrials : ℤ) - (totalMatches : ℤ)) - (sc.totalFalseAlarms : ℤ))

/-- The accuracy of the current handleGameEnd:
(hits + correctRejections) / totalTrials when totalTrials > 0, else the
documented default 1. -/
def accuracyCurrent (totalTrials totalMatches : ℕ) (sc : AppScore) : ℚ :=
  if 0 < totalTrials then
    ((sc.hits : ℚ) + (correctRejections totalTrials totalMatches sc : ℚ)) /
      (totalTrials : ℚ)
  else 1

/-- The accuracy of the earlier handleGameEnd variant:
hits / totalMatches when totalMatches > 0, else the documented default 1. -/
def accuracyLegacy (totalMatches : ℕ) (sc : AppScore) : ℚ :=
  if 0 < totalMatches then (sc.hits : ℚ) / (totalMatches : ℚ) else 1

/-- The settings snapshot stored inside a PerformanceRecord. -/
structure PerfSettings where
  nLevel : ℕ
  audioThreshold : ℚ
  colorThreshold : ℚ
  shapeThreshold : ℚ
  gridRows : ℕ
  gridCols : ℕ
deriving DecidableEq

/-- A PerformanceRecord as appended by the current handleGameEnd.  The
wall-clock date string is external input and omitted. -/
structure PerformanceRecord where
  settingsSnap : PerfSettings
  score : AppScore
  accuracy : ℚ
  duration : ℚ
  totalMatches : ℕ
deriving DecidableEq

inductive GamePhase
  | Start
  | Calibrating
  | Playing
  | Finished
  | SettingsScreen
  | Performance
deriving DecidableEq

/-- The App-level state touched by the session-end handler. -/
structure AppState where
  gameState : GamePhase
  settings : Settings
  performanceHistory : List PerformanceRecord
deriving DecidableEq

/-- The dynamic difficulty adjustment of both handleGameEnd variants:
each threshold is multiplied by 0.95 and clamped below at its minimum. -/
def adjustThresholds (s : Settings) : Settings :=
  { s with
    audioThreshold := max 5 (s.audioThreshold * (19 / 20))
    colorThreshold := max 2 (s.colorThreshold * (19 / 20))
    shapeThreshold := max (1 / 100) (s.shapeThreshold * (19 / 20)) }

/-- handleGameEnd of the current App: on a completed session compute the
accuracy, append one PerformanceRecord, run the difficulty adjustment when
accuracy > 0.75, and transition to Finished; on an aborted session only
transition to Finished. -/
def handleGameEnd (st : AppState) (finalScore : AppScore) (totalMatches : ℕ)
    (completed : Bool) (duration : ℚ) : AppState :=
  if completed then
    let accuracy := accuracyCurrent st.settings.totalTrials totalMatches finalScore
    let record : PerformanceRecord :=
      { settingsSnap :=
          { nLevel := st.settings.nLevel
            audioThreshold := st.settings.audioThreshold
            colorThreshold := st.settings.colorThreshold
            shapeThreshold := st.settings.shapeThreshold
            gridRows := st.settings.gridRows
            gridCols := st.settings.gridCols }
        score := finalScore
        accuracy := accuracy
        duration := duration
        totalMatches := totalMatches }
    let settings1 :=
      if 3 / 4 < accuracy then adjustThresholds st.settings else st.settings
    { st with
      performanceHistory := st.performanceHistory ++ [record]
      settings := settings1
      gameState := .Finished }
  else
    { st with gameState := .Finished }

/-- handleSave of the settings form: a configuration with zero enabled
modalities is refused (none), any other configuration is saved. -/
def handleSave (localSettings : Settings) : Option Settings :=
  if !localSettings.spatialEnabled && !localSettings.audioEnabled &&
     !localSettings.colorEnabled && !localSettings.shapeEnabled then
    none
  else some localSettings

/-- Zero enabled modalities, as tested by handleSave. -/
def allModalitiesDisabled (s : Settings) : Bool :=
  !s.spatialEnabled && !s.audioEnabled && !s.colorEnabled && !s.shapeEnabled

/-- The calibrated modalities of the converging staircase variant (the
Calibration snapshot with a spatial threshold). -/
inductive CalModA
  | audio
  | spatial
  | color
  | shape
deriving DecidableEq

/-- The CalibrationResult record of the converging staircase variant. -/
structure ThresholdsA where
  audioThreshold : ℚ
  spatialThreshold : ℚ
  colorThreshold : ℚ
  shapeThreshold : ℚ
deriving DecidableEq

/-- The per-modality minimum deltas of the converging variant
(MIN_AUDIO_DELTA = 5, MIN_SPATIAL_DELTA = 0.005, MIN_COLOR_DELTA = 2,
MIN_SHAPE_DELTA = 0.01). -/
def minDeltaA : CalModA → ℚ
  | .audio => 5
  | .spatial => 1 / 200
  | .color => 2
  | .shape => 1 / 100

/-- handleResponse of the converging staircase: correct (the user chose
Different) multiplies the threshold by 0.90 floored at the modality minimum;
incorrect multiplies it by 1.25. -/
def handleResponseConverging (mode : CalModA) (th : ThresholdsA)
    (userChoseSame : Bool) : ThresholdsA :=
  let wasCorrect := !userChoseSame
  let stepVal : ℚ → ℚ := fun t =>
    if wasCorrect then max (minDeltaA mode) (t * (9 / 10)) else t * (5 / 4)
  match mode with
  | .audio => { th with audioThreshold := stepVal th.audioThreshold }
  | .spatial => { th with spatialThreshold := stepVal th.spatialThreshold }
  | .color => { th with colorThreshold := stepVal th.colorThreshold }
  | .shape => { th with shapeThreshold := stepVal th.shapeThreshold }

/-- The calibrated modalities of the ascending-only variant. -/
inductive CalModB
  | audio
  | color
  | shape
deriving DecidableEq

/-- The CalibrationResult record of the ascending-only variant. -/
structure ThresholdsB where
  audioThreshold : ℚ
  colorThreshold : ℚ
  shapeThreshold : ℚ
deriving DecidableEq

/-- The per-modality minimum deltas of the ascending-only variant. -/
def minDeltaB : CalModB → ℚ
  | .audio => 5
  | .color => 2
  | .shape => 1 / 100

/-- startModalityCalibration of the ascending-only variant: the calibrated
threshold restarts exactly at the modality minimum. -/
def startModalityCalibration (mode : CalModB) (th : ThresholdsB) : ThresholdsB :=
  match mode with
  | .audio => { th with audioThreshold := minDeltaB .audio }
  | .color => { th with colorThreshold := minDeltaB .color }
  | .shape => { th with shapeThreshold := minDeltaB .shape }

/-- handleResponse of the ascending-only variant: a correct answer leaves
the threshold unchanged (and ends the run), an incorrect answer multiplies
it by INCORRECT_STEP_UP_FACTOR = 1.25. -/
def handleResponseAscending (mode : CalModB) (th : ThresholdsB)
    (userChoseSame : Bool) : ThresholdsB :=
  let wasCorrect := !userChoseSame
  if wasCorrect then th
  else
    match mode with
    | .audio => { th with audioThreshold := th.audioThreshold * (5 / 4) }
    | .color => { th with colorThreshold := th.colorThreshold * (5 / 4) }
    | .shape => { th with shapeThreshold := th.shapeThreshold * (5 / 4) }

/-- The floor invariant of the converging variant. -/
def AboveMinsA (th : ThresholdsA) : Prop :=
  minDeltaA .audio ≤ th.audioThreshold ∧ minDeltaA .spatial ≤ th.spatialThreshold ∧
  minDeltaA .color ≤ th.colorThreshold ∧ minDeltaA .shape ≤ th.shapeThreshold

/-- The floor invariant of the ascending-only variant. -/
def AboveMinsB (th : ThresholdsB) : Prop :=
  minDeltaB .audio ≤ th.audioThreshold ∧ minDeltaB .color ≤ th.colorThreshold ∧
  minDeltaB .shape ≤ th.shapeThreshold

instance (th : ThresholdsA) : Decidable (AboveMinsA th) := by
  unfold AboveMinsA; infer_instance

instance (th : ThresholdsB) : Decidable (AboveMinsB th) := by
  unfold AboveMinsB; infer_instance

/-- A whole calibration run as a fold of responses (converging variant). -/
def runStaircaseConverging (th : ThresholdsA) (evs : List (CalModA × Bool)) :
    ThresholdsA :=
  evs.foldl (fun t mb => handleResponseConverging mb.1 t mb.2) th

/-- A whole calibration run as a fold of responses (ascending variant). -/
def runStaircaseAscending (th : ThresholdsB) (evs : List (CalModB × Bool)) :
    ThresholdsB :=
  evs.foldl (fun t mb => handleResponseAscending mb.1 t mb.2) th

/-- Concrete parameters used by the evaluation witnesses below. -/
def opsW : RealOps := ⟨fun _ => 1, fun _ => 1⟩

def randW : TrialRand :=
  { nDraw := 0, rowDraw := 0, colDraw := 0, audioDraw := 0, baseHueDraw := 0
    intervalDraw := 0, shapeDraw := fun _ => 0, classDraw := fun _ => 1
    dirPos := fun _ => true, spatialPickDraw := 0, colorPick1 := 0
    colorPick2 := 0, shapeIdxDraw := 0 }

def settingsW : Settings :=
  { nLevel := 2, matchRate := 1 / 5, lureRate := 3 / 10, isi := 2500
    gridRows := 7, gridCols := 7, audioThreshold := 290, colorThreshold := 28
    shapeThreshold := 1 / 5, totalTrials := 25, ballSize := 1 / 2
    variableN := false, spatialEnabled := true, audioEnabled := true
    colorEnabled := false, shapeEnabled := false, shapeVertices := 6
    feedbackEnabled := true, calibrationEnabled := false }

/-- A concrete two-trial state whose most recent event is an unanswered
true spatial match generated at lag 1, used by the witnesses below. -/
def eventW0 : NBackEvent :=
  ⟨0, 0, 0, 200, ⟨0, 0, 0⟩, [], MatchFlags.allFalse, none, 1⟩

def eventW1 : NBackEvent :=
  ⟨1, 0, 0, 200, ⟨0, 0, 0⟩, [], ⟨false, true, false, false⟩, none, 1⟩

def stateW : GameSt :=
  ⟨[eventW0, eventW1], 2, ⟨⟨0, 0, 0, 0⟩, 0, 0, 0, 0, 0⟩, [], ⟨0, 0, 0, 0⟩⟩

def settingsNoFb : Settings := { settingsW with feedbackEnabled := false }

/-- The all-disabled configuration and the empty initial session state used
by the zero-modality evaluation theorems. -/
def settingsAllOff : Settings :=
  { settingsW with spatialEnabled := false, audioEnabled := false, colorEnabled := false, shapeEnabled := false }

def stateInit : GameSt :=
  ⟨[], 0, ⟨⟨0, 0, 0, 0⟩, 0, 0, 0, 0, 0⟩, [], ⟨0, 0, 0, 0⟩⟩

end NBack

namespace NBack

lemma setMatchValue_n (e target : NBackEvent) (m : Modality) :
    (setMatchValue e target m).n = e.n := by
  cases m <;> rfl

lemma setMatchValue_lureType (e target : NBackEvent) (m : Modality) :
    (setMatchValue e target m).lureType = e.lureType := by
  cases m <;> rfl

lemma applyLure_n (s : Settings) (ops : RealOps) (rand : TrialRand)
    (target e : NBackEvent) (m : Modality) :
    (applyLure s ops rand target e m).n = e.n := by
  cases m
  case spatial =>
    dsimp only [applyLure]
    split <;> rfl
  all_goals rfl

lemma applyModality_fst_n (s : Settings) (ops : RealOps) (rand : TrialRand)
    (target : NBackEvent) (acc : NBackEvent × Bool) (m : Modality) :
    ((applyModality s ops rand target acc m).1).n = acc.1.n := by
  dsimp only [applyModality]
  split_ifs with h1 h2 h3 <;>
    first
      | exact setMatchValue_n _ _ _
      | (show (applyLure _ _ _ _ _ _).n = _; rw [applyLure_n])
      | rfl

lemma foldl_applyModality_n (s : Settings) (ops : RealOps) (rand : TrialRand)
    (target : NBackEvent) (l : List Modality) (acc : NBackEvent × Bool) :
    ((l.foldl (applyModality s ops rand target) acc).1).n = acc.1.n := by
  induction l generalizing acc with
  | nil => rfl
  | cons m rest ih =>
    rw [List.foldl_cons, ih]
    exact applyModality_fst_n _ _ _ _ _ _

lemma generateNextEvent_n (s : Settings) (ops : RealOps) (rand : TrialRand)
    (history : List NBackEvent) (trialNumber : ℕ) :
    (generateNextEvent s ops rand history trialNumber).n =
      chooseN s ops rand.nDraw := by
  unfold generateNextEvent
  dsimp only
  split
  · split
    · rw [foldl_applyModality_n]
    · rfl
  · rfl

/-- Claim C1: every trial generated by generateNextEvent whose trial index
is strictly below the lag chosen for it has isMatch false for every modality
and lureType none (the ramp-up period is always random/foil). -/
theorem ramp_up_no_match_no_lure (s : Settings) (ops : RealOps)
    (rand : TrialRand) (history : List NBackEvent) (trialNumber : ℕ)
    (h : trialNumber < (generateNextEvent s ops rand history trialNumber).n) :
    (generateNextEvent s ops rand history trialNumber).isMatch =
      MatchFlags.allFalse ∧
    (generateNextEvent s ops rand history trialNumber).lureType = none := by
  rw [generateNextEvent_n] at h
  unfold generateNextEvent
  dsimp only
  rw [if_neg (by omega)]
  exact ⟨rfl, rfl⟩

/-- Evaluation witness for claim C1: at the concrete initial trial the
chosen lag exceeds the trial index and the generated event is fully
random. -/
theorem ramp_up_no_match_no_lure_witness :
    0 < (generateNextEvent settingsW opsW randW [] 0).n ∧
    ((generateNextEvent settingsW opsW randW [] 0).isMatch =
        MatchFlags.allFalse ∧
      (generateNextEvent settingsW opsW randW [] 0).lureType = none) :=
  ⟨by decide, ramp_up_no_match_no_lure settingsW opsW randW [] 0 (by decide)⟩

lemma handleUserResponse_of_zero (st : GameSt) (m : Modality)
    (h0 : st.trialNumber = 0) : handleUserResponse st m = st := by
  simp [handleUserResponse, h0]

lemma handleUserResponse_of_none (st : GameSt) (m : Modality)
    (hgl : st.history.getLast? = none) : handleUserResponse st m = st := by
  unfold handleUserResponse
  rw [hgl]
  split <;> rfl

lemma handleUserResponse_of_window (st : GameSt) (m : Modality)
    (e : NBackEvent) (hgl : st.history.getLast? = some e)
    (hn : st.trialNumber ≤ e.n) : handleUserResponse st m = st := by
  by_cases h0 : st.trialNumber = 0
  · exact handleUserResponse_of_zero st m h0
  · unfold handleUserResponse
    rw [hgl]
    dsimp only
    rw [if_neg h0, if_pos hn]

lemma handleUserResponse_of_responded (st : GameSt) (m : Modality)
    (e : NBackEvent) (hgl : st.history.getLast? = some e)
    (hr : (e.id, m) ∈ st.respondedTo) : handleUserResponse st m = st := by
  by_cases h0 : st.trialNumber = 0
  · exact handleUserResponse_of_zero st m h0
  · by_cases hn : st.trialNumber ≤ e.n
    · exact handleUserResponse_of_window st m e hgl hn
    · unfold handleUserResponse
      rw [hgl]
      dsimp only
      rw [if_neg h0, if_neg hn, if_pos hr]

/-- Claim C4: a second respond call for the same (trial, modality) pair is a
no-op on the whole session state (so at most one hit or false alarm is ever
credited per pair), and respond is a no-op when no trial has occurred yet or
while the current trial counter has not passed the trial lag
(trialNumber ≤ current.n). -/
theorem respond_at_most_once_per_trial_modality (st : GameSt) (m : Modality) :
    handleUserResponse (handleUserResponse st m) m = handleUserResponse st m ∧
    (st.trialNumber = 0 → handleUserResponse st m = st) ∧
    (∀ e, st.history.getLast? = some e → st.trialNumber ≤ e.n →
      handleUserResponse st m = st) := by
  refine ⟨?_, fun h0 => handleUserResponse_of_zero st m h0,
    fun e hgl hn => handleUserResponse_of_window st m e hgl hn⟩
  by_cases h0 : st.trialNumber = 0
  · rw [handleUserResponse_of_zero st m h0]
    exact handleUserResponse_of_zero st m h0
  · cases hgl : st.history.getLast? with
    | none =>
        rw [handleUserResponse_of_none st m hgl]
        exact handleUserResponse_of_none st m hgl
    | some current =>
        by_cases hn : st.trialNumber ≤ current.n
        · rw [handleUserResponse_of_window st m current hgl hn]
          exact handleUserResponse_of_window st m current hgl hn
        · by_cases hr : (current.id, m) ∈ st.respondedTo
          · rw [handleUserResponse_of_responded st m current hgl hr]
            exact handleUserResponse_of_responded st m current hgl hr
          · have hst1 : handleUserResponse st m =
                { st with
                  score :=
                    if current.isMatch.get m then
                      { st.score with hits := st.score.hits.incr m }
                    else st.score.incrFA m
                  respondedTo := (current.id, m) :: st.respondedTo } := by
              unfold handleUserResponse
              rw [hgl]
              dsimp only
              rw [if_neg h0, if_neg hn, if_neg hr]
            rw [hst1]
            refine handleUserResponse_of_responded _ m current ?_ ?_
            · simpa using hgl
            · exact List.mem_cons_self _ _

/-- Evaluation witness for claim C4: at a concrete state with no trial yet
(and whose only event is still inside its lag window) respond is a no-op
and a repeated respond changes nothing. -/
theorem respond_at_most_once_per_trial_modality_witness :
    handleUserResponse
        ⟨[⟨0, 0, 0, 200, ⟨0, 0, 0⟩, [], MatchFlags.allFalse, none, 2⟩], 0,
          ⟨⟨0, 0, 0, 0⟩, 0, 0, 0, 0, 0⟩, [], ⟨0, 0, 0, 0⟩⟩ Modality.audio =
      ⟨[⟨0, 0, 0, 200, ⟨0, 0, 0⟩, [], MatchFlags.allFalse, none, 2⟩], 0,
        ⟨⟨0, 0, 0, 0⟩, 0, 0, 0, 0, 0⟩, [], ⟨0, 0, 0, 0⟩⟩ ∧
    handleUserResponse
        (handleUserResponse
          ⟨[⟨0, 0, 0, 200, ⟨0, 0, 0⟩, [], MatchFlags.allFalse, none, 2⟩], 0,
            ⟨⟨0, 0, 0, 0⟩, 0, 0, 0, 0, 0⟩, [], ⟨0, 0, 0, 0⟩⟩ Modality.audio)
        Modality.audio =
      handleUserResponse
        ⟨[⟨0, 0, 0, 200, ⟨0, 0, 0⟩, [], MatchFlags.allFalse, none, 2⟩], 0,
          ⟨⟨0, 0, 0, 0⟩, 0, 0, 0, 0, 0⟩, [], ⟨0, 0, 0, 0⟩⟩ Modality.audio :=
  ⟨(respond_at_most_once_per_trial_modality _ Modality.audio).2.2
      ⟨0, 0, 0, 200, ⟨0, 0, 0⟩, [], MatchFlags.allFalse, none, 2⟩ (by decide)
      (by decide),
    (respond_at_most_once_per_trial_modality _ Modality.audio).1⟩

lemma handleResponseConverging_preserves (mode : CalModA) (th : ThresholdsA)
    (b : Bool) (h : AboveMinsA th) :
    AboveMinsA (handleResponseConverging mode th b) := by
  obtain ⟨ha, hs, hc, hsh⟩ := h
  have step : ∀ minv t : ℚ, 0 < minv → minv ≤ t →
      minv ≤ (if (!b) = true then max minv (t * (9 / 10)) else t * (5 / 4)) := by
    intro minv t hpos ht
    split
    · exact le_max_left _ _
    · linarith
  cases mode
  case audio =>
    exact ⟨step _ _ (by norm_num [minDeltaA]) ha, hs, hc, hsh⟩
  case spatial =>
    exact ⟨ha, step _ _ (by norm_num [minDeltaA]) hs, hc, hsh⟩
  case color =>
    exact ⟨ha, hs, step _ _ (by norm_num [minDeltaA]) hc, hsh⟩
  case shape =>
    exact ⟨ha, hs, hc, step _ _ (by norm_num [minDeltaA]) hsh⟩

lemma runStaircaseConverging_preserves (evs : List (CalModA × Bool)) :
    ∀ th : ThresholdsA, AboveMinsA th →
      AboveMinsA (runStaircaseConverging th evs) := by
  induction evs with
  | nil => intro th h; exact h
  | cons e rest ih =>
      intro th h
      exact ih _ (handleResponseConverging_preserves e.1 th e.2 h)

lemma handleResponseAscending_preserves (mode : CalModB) (th : ThresholdsB)
    (b : Bool) (h : AboveMinsB th) :
    AboveMinsB (handleResponseAscending mode th b) := by
  obtain ⟨ha, hc, hsh⟩ := h
  unfold handleResponseAscending
  dsimp only
  split
  · exact ⟨ha, hc, hsh⟩
  · cases mode <;> dsimp only <;> refine ⟨?_, ?_, ?_⟩ <;>
      simp only [minDeltaB] at * <;> linarith

lemma runStaircaseAscending_preserves (evs : List (CalModB × Bool)) :
    ∀ th : ThresholdsB, AboveMinsB th →
      AboveMinsB (runStaircaseAscending th evs) := by
  induction evs with
  | nil => intro th h; exact h
  | cons e rest ih =>
      intro th h
      exact ih _ (handleResponseAscending_preserves e.1 th e.2 h)

lemma startModalityCalibration_preserves (mode : CalModB) (th : ThresholdsB)
    (h : AboveMinsB th) : AboveMinsB (startModalityCalibration mode th) := by
  obtain ⟨ha, hc, hsh⟩ := h
  cases mode
  case audio => exact ⟨le_refl _, hc, hsh⟩
  case color => exact ⟨ha, le_refl _, hsh⟩
  case shape => exact ⟨ha, hc, le_refl _⟩

/-- Claim C5: in both staircase variants, a calibration run that starts with
every threshold at or above its per-modality minimum keeps every threshold
at or above that minimum through every update; in particular no threshold is
ever non-positive.  The ascending-only run additionally starts its
calibrated modality exactly at the minimum via startModalityCalibration. -/
theorem staircase_thresholds_floor_bounded (thA : ThresholdsA)
    (thB : ThresholdsB) (mB : CalModB) (evsA : List (CalModA × Bool))
    (evsB : List (CalModB × Bool)) (hA : AboveMinsA thA)
    (hB : AboveMinsB thB) :
    AboveMinsA (runStaircaseConverging thA evsA) ∧
    (0 < (runStaircaseConverging thA evsA).audioThreshold ∧
      0 < (runStaircaseConverging thA evsA).spatialThreshold ∧
      0 < (runStaircaseConverging thA evsA).colorThreshold ∧
      0 < (runStaircaseConverging thA evsA).shapeThreshold) ∧
    AboveMinsB
        (runStaircaseAscending (startModalityCalibration mB thB) evsB) ∧
    (0 < (runStaircaseAscending (startModalityCalibration mB thB)
            evsB).audioThreshold ∧
      0 < (runStaircaseAscending (startModalityCalibration mB thB)
            evsB).colorThreshold ∧
      0 < (runStaircaseAscending (startModalityCalibration mB thB)
            evsB).shapeThreshold) := by
  have hA1 := runStaircaseConverging_preserves evsA thA hA
  have hB1 := runStaircaseAscending_preserves evsB _
    (startModalityCalibration_preserves mB thB hB)
  obtain ⟨a1, a2, a3, a4⟩ := hA1
  obtain ⟨b1, b2, b3⟩ := hB1
  refine ⟨⟨a1, a2, a3, a4⟩, ⟨?_, ?_, ?_, ?_⟩, ⟨b1, b2, b3⟩, ⟨?_, ?_, ?_⟩⟩ <;>
    simp only [minDeltaA, minDeltaB] at * <;> linarith

/-- Evaluation witness for claim C5: a concrete two-response run in each
variant stays above every modality minimum. -/
theorem staircase_thresholds_floor_bounded_witness :
    AboveMinsA (runStaircaseConverging ⟨290, 1, 28, 1 / 5⟩
        [(CalModA.audio, true), (CalModA.audio, false)]) ∧
    (0 < (runStaircaseConverging ⟨290, 1, 28, 1 / 5⟩
        [(CalModA.audio, true), (CalModA.audio, false)]).audioThreshold ∧
      0 < (runStaircaseConverging ⟨290, 1, 28, 1 / 5⟩
        [(CalModA.audio, true), (CalModA.audio, false)]).spatialThreshold ∧
      0 < (runStaircaseConverging ⟨290, 1, 28, 1 / 5⟩
        [(CalModA.audio, true), (CalModA.audio, false)]).colorThreshold ∧
      0 < (runStaircaseConverging ⟨290, 1, 28, 1 / 5⟩
        [(CalModA.audio, true), (CalModA.audio, false)]).shapeThreshold) ∧
    AboveMinsB (runStaircaseAscending
        (startModalityCalibration CalModB.audio ⟨290, 28, 1 / 5⟩)
        [(CalModB.audio, true), (CalModB.audio, false)]) ∧
    (0 < (runStaircaseAscending
        (startModalityCalibration CalModB.audio ⟨290, 28, 1 / 5⟩)
        [(CalModB.audio, true), (CalModB.audio, false)]).audioThreshold ∧
      0 < (runStaircaseAscending
        (startModalityCalibration CalModB.audio ⟨290, 28, 1 / 5⟩)
        [(CalModB.audio, true), (CalModB.audio, false)]).colorThreshold ∧
      0 < (runStaircaseAscending
        (startModalityCalibration CalModB.audio ⟨290, 28, 1 / 5⟩)
        [(CalModB.audio, true), (CalModB.audio, false)]).shapeThreshold) :=
  staircase_thresholds_floor_bounded ⟨290, 1, 28, 1 / 5⟩ ⟨290, 28, 1 / 5⟩
    CalModB.audio [(CalModA.audio, true), (CalModA.audio, false)]
    [(CalModB.audio, true), (CalModB.audio, false)]
    (by refine ⟨?_, ?_, ?_, ?_⟩ <;> norm_num [minDeltaA])
    (by refine ⟨?_, ?_, ?_⟩ <;> norm_num [minDeltaB])

/-- Claim C6: neither session-end accuracy computation ever divides by zero:
the guarded division is only taken when the denominator is positive, and a
zero denominator (zero total trials in the current formula, zero presented
matches in the legacy formula) yields the documented default value 1. -/
theorem accuracy_zero_denominator_defaults (totalTrials totalMatches : ℕ)
    (sc : AppScore) :
    (totalTrials = 0 → accuracyCurrent totalTrials totalMatches sc = 1) ∧
    (totalTrials ≠ 0 →
      accuracyCurrent totalTrials totalMatches sc * (totalTrials : ℚ) =
        (sc.hits : ℚ) + (correctRejections totalTrials totalMatches sc : ℚ)) ∧
    (totalMatches = 0 → accuracyLegacy totalMatches sc = 1) ∧
    (totalMatches ≠ 0 →
      accuracyLegacy totalMatches sc * (totalMatches : ℚ) = (sc.hits : ℚ)) := by
  refine ⟨?_, ?_, ?_, ?_⟩
  · intro h
    simp [accuracyCurrent, h]
  · intro h
    have hpos : 0 < totalTrials := Nat.pos_of_ne_zero h
    have hne : (totalTrials : ℚ) ≠ 0 := by exact_mod_cast h
    rw [accuracyCurrent, if_pos hpos, div_mul_cancel₀ _ hne]
  · intro h
    simp [accuracyLegacy, h]
  · intro h
    have hpos : 0 < totalMatches := Nat.pos_of_ne_zero h
    have hne : (totalMatches : ℚ) ≠ 0 := by exact_mod_cast h
    rw [accuracyLegacy, if_pos hpos, div_mul_cancel₀ _ hne]

/-- Evaluation witness for claim C6: with zero total trials and zero
presented matches both accuracy formulas return the default 1. -/
theorem accuracy_zero_denominator_defaults_witness :
    accuracyCurrent 0 0 ⟨3, 1, 0, 0, 0, 0⟩ = 1 ∧
    accuracyLegacy 0 ⟨3, 1, 0, 0, 0, 0⟩ = 1 :=
  ⟨(accuracy_zero_denominator_defaults 0 0 ⟨3, 1, 0, 0, 0, 0⟩).1 rfl,
    (accuracy_zero_denominator_defaults 0 0 ⟨3, 1, 0, 0, 0, 0⟩).2.2.1 rfl⟩

/-- Claim C7: a session quit mid-way (completed = false) transitions the app
straight to Finished, appends no PerformanceRecord, and leaves every setting
(in particular the per-modality thresholds) exactly as before the quit. -/
theorem quit_emits_no_record_and_keeps_thresholds (st : AppState)
    (sc : AppScore) (tm : ℕ) (dur : ℚ) :
    handleGameEnd st sc tm false dur =
      { st with gameState := GamePhase.Finished } ∧
    (handleGameEnd st sc tm false dur).performanceHistory =
      st.performanceHistory ∧
    (handleGameEnd st sc tm false dur).settings = st.settings ∧
    (handleGameEnd st sc tm false dur).gameState = GamePhase.Finished :=
  ⟨rfl, rfl, rfl, rfl⟩

/-- Claim C10: after a completed session the difficulty adaptation fires
exactly when the computed accuracy is strictly above 0.75; it multiplies the
audio, color and shape thresholds by 0.95 clamped below at 5, 2 and 0.01,
and otherwise leaves every threshold (indeed all settings) unchanged. -/
theorem difficulty_adaptation_threshold_update (st : AppState) (sc : AppScore)
    (tm : ℕ) (dur : ℚ) :
    (3 / 4 < accuracyCurrent st.settings.totalTrials tm sc →
      (handleGameEnd st sc tm true dur).settings =
          adjustThresholds st.settings ∧
        (handleGameEnd st sc tm true dur).settings.audioThreshold =
          max 5 (st.settings.audioThreshold * (19 / 20)) ∧
        (handleGameEnd st sc tm true dur).settings.colorThreshold =
          max 2 (st.settings.colorThreshold * (19 / 20)) ∧
        (handleGameEnd st sc tm true dur).settings.shapeThreshold =
          max (1 / 100) (st.settings.shapeThreshold * (19 / 20))) ∧
    (accuracyCurrent st.settings.totalTrials tm sc ≤ 3 / 4 →
      (handleGameEnd st sc tm true dur).settings = st.settings) := by
  constructor
  · intro h
    have hs : (handleGameEnd st sc tm true dur).settings =
        adjustThresholds st.settings := by
      unfold handleGameEnd
      dsimp only
      rw [if_pos h]
      rfl
    exact ⟨hs, by rw [hs]; rfl, by rw [hs]; rfl, by rw [hs]; rfl⟩
  · intro h
    unfold handleGameEnd
    dsimp only
    rw [if_neg (not_lt.mpr h)]
    rfl

/-- Evaluation witness for claim C10: at a concrete completed session with
accuracy 2 (above 0.75) the three thresholds are stepped and clamped. -/
theorem difficulty_adaptation_threshold_update_witness :
    (handleGameEnd ⟨GamePhase.Playing, settingsW, []⟩ ⟨4, 0, 0, 0, 0, 0⟩ 0
        true 0).settings = adjustThresholds settingsW ∧
    (handleGameEnd ⟨GamePhase.Playing, settingsW, []⟩ ⟨4, 0, 0, 0, 0, 0⟩ 0
        true 0).settings.audioThreshold = max 5 (290 * (19 / 20)) :=
  ⟨(difficulty_adaptation_threshold_update ⟨GamePhase.Playing, settingsW, []⟩
      ⟨4, 0, 0, 0, 0, 0⟩ 0 0).1
      (by norm_num [accuracyCurrent, correctRejections,
        AppScore.totalFalseAlarms, settingsW]) |>.1,
    (difficulty_adaptation_threshold_update ⟨GamePhase.Playing, settingsW, []⟩
      ⟨4, 0, 0, 0, 0, 0⟩ 0 0).1
      (by norm_num [accuracyCurrent, correctRejections,
        AppScore.totalFalseAlarms, settingsW]) |>.2.1⟩

lemma ratFloor_eq_of (q : ℚ) (z : ℤ) (h1 : (z : ℚ) ≤ q) (h2 : q < z + 1) :
    Rat.floor q = z := by
  have ha : z ≤ Rat.floor q := Rat.le_floor.mpr h1
  have hb : Rat.floor q < z + 1 := by
    by_contra hc
    push_neg at hc
    have := Rat.le_floor.mp hc
    push_cast at this
    linarith
  omega

lemma mem_divisorCandidates {maxN d : ℕ} (h2 : 2 ≤ maxN) :
    d ∈ divisorCandidates maxN ↔ d ∣ maxN ∧ 2 ≤ d ∧ d < maxN := by
  have hsq1 : 1 ≤ Nat.sqrt maxN := by
    have := Nat.le_sqrt.mpr (show 1 * 1 ≤ maxN by omega)
    omega
  unfold divisorCandidates
  simp only [List.mem_flatMap, List.mem_filter, List.mem_range'_1, beq_iff_eq,
    List.mem_cons, List.mem_singleton, List.not_mem_nil, or_false]
  constructor
  · rintro ⟨i, ⟨⟨hi2, hiub⟩, hmod⟩, hd⟩
    have hidvd : i ∣ maxN := Nat.dvd_of_mod_eq_zero hmod
    have hisqrt : i ≤ Nat.sqrt maxN := by omega
    rcases hd with hd | hd
    · subst hd
      exact ⟨hidvd, hi2, lt_of_le_of_lt hisqrt (Nat.sqrt_lt_self (by omega))⟩
    · subst hd
      refine ⟨Nat.div_dvd_of_dvd hidvd, ?_, Nat.div_lt_self (by omega) (by omega)⟩
      have hii : i * i ≤ maxN := Nat.le_sqrt.mp hisqrt
      have hile : i ≤ maxN / i := (Nat.le_div_iff_mul_le (by omega)).mpr hii
      exact le_trans hi2 hile
  · rintro ⟨hdvd, hd2, hdlt⟩
    have hcd : maxN / d * d = maxN := Nat.div_mul_cancel hdvd
    have hcpos : 0 < maxN / d := by
      rcases Nat.eq_zero_or_pos (maxN / d) with h | h
      · rw [h, Nat.zero_mul] at hcd
        omega
      · exact h
    have hc2 : 2 ≤ maxN / d := by
      by_contra hcon
      have hone : maxN / d = 1 := by omega
      rw [hone, Nat.one_mul] at hcd
      omega
    by_cases hds : d ≤ Nat.sqrt maxN
    · exact ⟨d, ⟨⟨hd2, by omega⟩, Nat.mod_eq_zero_of_dvd hdvd⟩, Or.inl rfl⟩
    · have hcsqrt : maxN / d ≤ Nat.sqrt maxN := by
        by_contra hcon
        have h1 : Nat.sqrt maxN + 1 ≤ maxN / d := by omega
        have h2' : Nat.sqrt maxN + 1 ≤ d := by omega
        have hlt := Nat.lt_succ_sqrt maxN
        simp only [Nat.succ_eq_add_one] at hlt
        have hge : (Nat.sqrt maxN + 1) * (Nat.sqrt maxN + 1) ≤ maxN / d * d :=
          Nat.mul_le_mul h1 h2'
        rw [hcd] at hge
        omega
      refine ⟨maxN / d, ⟨⟨hc2, by omega⟩,
        Nat.mod_eq_zero_of_dvd (Nat.div_dvd_of_dvd hdvd)⟩, Or.inr ?_⟩
      have : maxN / d * d / (maxN / d) = d := Nat.mul_div_cancel_left d hcpos
      rw [hcd] at this
      omega
lemma mem_getValidNValues {k : ℕ} (hk : 1 ≤ k) (d : ℕ) :
    d ∈ getValidNValues k ↔ 1 ≤ d ∧ d ≤ k ∧ ¬ IsNontrivialDivisor d k := by
  unfold getValidNValues
  by_cases hk2 : k ≤ 2
  · rw [if_pos hk2]
    simp only [List.mem_range'_1]
    constructor
    · rintro ⟨h1, h2⟩
      refine ⟨h1, by omega, ?_⟩
      rintro ⟨hdvd, hne1, hnek⟩
      have hdk : d ≤ k := Nat.le_of_dvd (by omega) hdvd
      omega
    · rintro ⟨h1, h2, -⟩
      exact ⟨h1, by omega⟩
  · rw [if_neg hk2]
    have h2k : 2 ≤ k := by omega
    simp only [List.mem_filter, List.mem_range'_1, Bool.not_eq_true',
      decide_eq_false_iff_not, mem_divisorCandidates h2k]
    constructor
    · rintro ⟨⟨h1, hlt⟩, hnc⟩
      refine ⟨h1, by omega, ?_⟩
      rintro ⟨hdvd, hne1, hnek⟩
      have hdk : d ≤ k := Nat.le_of_dvd (by omega) hdvd
      exact hnc ⟨hdvd, by omega, by omega⟩
    · rintro ⟨h1, hle, hnd⟩
      refine ⟨⟨h1, by omega⟩, ?_⟩
      rintro ⟨hdvd, hdge, hdlt⟩
      exact hnd ⟨hdvd, by omega, by omega⟩
lemma selectWeighted_lt (weights : List ℚ) (r : ℚ) (h : weights ≠ []) :
    selectWeighted weights r < weights.length := by
  have hpos : 0 < weights.length := List.length_pos.mpr h
  unfold selectWeighted
  dsimp only
  split
  · assumption
  · omega
lemma chooseN_mem (s : Settings) (ops : RealOps) (r : ℚ)
    (hvar : s.variableN = true) (hk : 1 ≤ s.nLevel) :
    chooseN s ops r ∈ getValidNValues s.nLevel := by
  have hone : (1 : ℕ) ∈ getValidNValues s.nLevel :=
    (mem_getValidNValues hk 1).mpr
      ⟨le_refl 1, hk, by rintro ⟨-, h, -⟩; exact h rfl⟩
  unfold chooseN
  rw [hvar, if_pos rfl]
  dsimp only
  by_cases h0 : (getValidNValues s.nLevel).length = 0
  · exact absurd hone (by rw [List.length_eq_zero.mp h0]; exact List.not_mem_nil 1)
  · rw [if_neg h0]
    by_cases h1 : (getValidNValues s.nLevel).length = 1
    · rw [if_pos h1]
      cases hval : getValidNValues s.nLevel with
      | nil => rw [hval] at h0; simp at h0
      | cons a t => simp [List.headD]
    · rw [if_neg h1]
      have hlen : ((List.range (getValidNValues s.nLevel).length).map
          ops.expNat).length = (getValidNValues s.nLevel).length := by
        simp
      have hne : (List.range (getValidNValues s.nLevel).length).map
          ops.expNat ≠ [] := by
        intro hc
        rw [hc] at hlen
        exact h0 hlen.symm
      have hlt : selectWeighted ((List.range
          (getValidNValues s.nLevel).length).map ops.expNat) r <
          (getValidNValues s.nLevel).length := by
        have hsel := selectWeighted_lt ((List.range
          (getValidNValues s.nLevel).length).map ops.expNat) r hne
        rw [hlen] at hsel
        exact hsel
      rw [List.getD_eq_getElem?_getD, List.getElem?_eq_getElem hlt]
      exact List.getElem_mem _

/-- Claim C2 counterexample: the legacy variable-lag sampler
(src/components/NBackGame.tsx) draws the lag uniformly, and at nLevel = 6
the draw 1/5 yields the lag 2, which is a non-trivial divisor of 6 — so the
claim as stated over that cited sampler is false. -/
theorem legacy_variable_lag_draws_nontrivial_divisor :
    legacyChooseN 6 (1 / 5) 0 0 = 2 ∧ IsNontrivialDivisor 2 6 := by
  constructor
  · unfold legacyChooseN
    dsimp only
    rw [if_neg (by rintro ⟨h, -, -⟩; exact absurd h (by omega))]
    rw [show ((1 / 5 : ℚ) * ((6 : ℕ) : ℚ)).floor = 1 from
      ratFloor_eq_of _ 1 (by push_cast; norm_num) (by push_cast; norm_num)]
    rfl
  · exact ⟨⟨3, rfl⟩, by omega, by omega⟩

/-- Claim C2 (amended to the getValidNValues-based sampler of the current
engine): in variable-lag mode the chosen lag always lies in
getValidNValues nLevel, is never a non-trivial divisor of nLevel, and
getValidNValues k is exactly the set of integers 1..k that are not
non-trivial divisors of k. -/
theorem valid_lag_sampler_avoids_nontrivial_divisors (s : Settings)
    (ops : RealOps) (r : ℚ) (hvar : s.variableN = true) (hk : 1 ≤ s.nLevel) :
    chooseN s ops r ∈ getValidNValues s.nLevel ∧
    ¬ IsNontrivialDivisor (chooseN s ops r) s.nLevel ∧
    ∀ d, d ∈ getValidNValues s.nLevel ↔
      (1 ≤ d ∧ d ≤ s.nLevel ∧ ¬ IsNontrivialDivisor d s.nLevel) := by
  have hmem := chooseN_mem s ops r hvar hk
  exact ⟨hmem, ((mem_getValidNValues hk _).mp hmem).2.2,
    fun d => mem_getValidNValues hk d⟩

/-- Evaluation witness for claim C2: at the concrete variable-lag
configuration with nLevel 6 the sampled lag is valid and the
characterization holds at the probe value 2 (a non-trivial divisor of 6,
hence excluded). -/
theorem valid_lag_sampler_avoids_nontrivial_divisors_witness :
    chooseN { settingsW with variableN := true, nLevel := 6 } opsW (1 / 2) ∈
        getValidNValues
          ({ settingsW with variableN := true, nLevel := 6 } : Settings).nLevel ∧
    ¬ IsNontrivialDivisor
        (chooseN { settingsW with variableN := true, nLevel := 6 } opsW (1 / 2))
        ({ settingsW with variableN := true, nLevel := 6 } : Settings).nLevel ∧
    (2 ∈ getValidNValues
          ({ settingsW with variableN := true, nLevel := 6 } : Settings).nLevel ↔
      (1 ≤ 2 ∧
        2 ≤ ({ settingsW with variableN := true, nLevel := 6 } : Settings).nLevel ∧
        ¬ IsNontrivialDivisor 2
          ({ settingsW with variableN := true, nLevel := 6 } : Settings).nLevel)) := by
  obtain ⟨h1, h2, h3⟩ := valid_lag_sampler_avoids_nontrivial_divisors
    { settingsW with variableN := true, nLevel := 6 } opsW (1 / 2) rfl
    (by decide)
  exact ⟨h1, h2, h3 2⟩

lemma activeModalities_nodup (s : Settings) : (activeModalities s).Nodup := by
  cases hs : s.spatialEnabled <;> cases ha : s.audioEnabled <;>
    cases hc : s.colorEnabled <;> cases hsh : s.shapeEnabled <;>
      simp [activeModalities, hs, ha, hc, hsh]

lemma missEligible_nodup (s : Settings) (st : GameSt) :
    (missEligible s st).Nodup := by
  unfold missEligible
  by_cases h0 : 0 < st.trialNumber
  · rw [if_pos h0]
    cases hgl : st.history.getLast? with
    | none => exact List.nodup_nil
    | some lastEvent =>
        dsimp only
        by_cases hn : lastEvent.n < st.trialNumber
        · rw [if_pos hn]
          exact List.Nodup.filter _ (activeModalities_nodup s)
        · rw [if_neg hn]
          exact List.nodup_nil
  · rw [if_neg h0]
    exact List.nodup_nil

lemma mem_missEligible (s : Settings) (st : GameSt) (m : Modality) :
    m ∈ missEligible s st ↔
      (0 < st.trialNumber ∧ ∃ lastEvent,
        st.history.getLast? = some lastEvent ∧
        lastEvent.n < st.trialNumber ∧ m ∈ activeModalities s ∧
        lastEvent.isMatch.get m = true ∧
        (lastEvent.id, m) ∉ st.respondedTo) := by
  unfold missEligible
  by_cases h0 : 0 < st.trialNumber
  · rw [if_pos h0]
    cases hgl : st.history.getLast? with
    | none => simp
    | some lastEvent =>
        dsimp only
        by_cases hn : lastEvent.n < st.trialNumber
        · rw [if_pos hn]
          simp only [List.mem_filter, Bool.and_eq_true, Bool.not_eq_true',
            decide_eq_false_iff_not, Option.some.injEq]
          constructor
          · rintro ⟨hmem, hmatch, hnr⟩
            exact ⟨h0, lastEvent, rfl, hn, hmem, hmatch, hnr⟩
          · rintro ⟨-, e, he, -, hmem, hmatch, hnr⟩
            subst he
            exact ⟨hmem, hmatch, hnr⟩
        · rw [if_neg hn]
          simp only [List.not_mem_nil, false_iff, Option.some.injEq]
          rintro ⟨-, e, he, hn', -⟩
          subst he
          exact hn hn'
  · rw [if_neg h0]
    simp only [List.not_mem_nil, false_iff]
    rintro ⟨h, -⟩
    exact h0 h

/-- Claim C3 counterexample: in the current engine the whole
miss-resolution block of runTrial sits inside if (feedbackEnabled), so with
feedback disabled an unanswered true spatial match with a closed response
window (eligible for a miss by the characterization below) leaves the miss
counter at 0 on the next tick — the claim as stated over every tick is
false. -/
theorem misses_skipped_without_feedback :
    Modality.spatial ∈ missEligible settingsNoFb stateW ∧
    (runTrial settingsNoFb opsW randW stateW).missesOf = 0 := by
  constructor
  · decide
  · decide

/-- Claim C3 (amended with the feedback-enabled condition the code imposes):
when feedbackEnabled is set, every scheduler tick first resolves as misses —
exactly one each — the enabled modalities whose previous trial was an
unanswered true match with a closed response window, computed from the
pre-tick state, and only then generates and appends the next event (or ends
the session); the eligible set is characterized exactly. -/
theorem tick_resolves_misses_before_generation (s : Settings) (ops : RealOps)
    (rand : TrialRand) (st : GameSt) (hfb : s.feedbackEnabled = true) :
    (missEligible s st).Nodup ∧
    (∀ m, m ∈ missEligible s st ↔
      (0 < st.trialNumber ∧ ∃ lastEvent,
        st.history.getLast? = some lastEvent ∧
        lastEvent.n < st.trialNumber ∧ m ∈ activeModalities s ∧
        lastEvent.isMatch.get m = true ∧
        (lastEvent.id, m) ∉ st.respondedTo)) ∧
    (s.totalTrials ≤ st.trialNumber →
      runTrial s ops rand st = .ended
        { st.score with
          misses := st.score.misses + (missEligible s st).length }
        st.totalMatches) ∧
    (st.trialNumber < s.totalTrials →
      runTrial s ops rand st = .next
        { history := st.history ++
            [generateNextEvent s ops rand st.history st.trialNumber]
          trialNumber := st.trialNumber + 1
          score := { st.score with
            misses := st.score.misses + (missEligible s st).length }
          respondedTo := st.respondedTo
          totalMatches := bumpMatches st.totalMatches
            (generateNextEvent s ops rand st.history st.trialNumber) }) := by
  refine ⟨missEligible_nodup s st, fun m => mem_missEligible s st m, ?_, ?_⟩
  · intro hend
    unfold runTrial
    rw [hfb]
    dsimp only
    rw [if_pos rfl, if_pos hend]
  · intro hlt
    unfold runTrial
    rw [hfb]
    dsimp only
    rw [if_pos rfl, if_neg (not_le.mpr hlt)]

/-- Evaluation witness for claim C3: at a concrete feedback-enabled state
with one unanswered spatial match the tick increments misses by exactly one
(the eligible set is the singleton spatial) and appends the freshly
generated event. -/
theorem tick_resolves_misses_before_generation_witness :
    Modality.spatial ∈ missEligible settingsW stateW ∧
    runTrial settingsW opsW randW stateW = .next
      { history := stateW.history ++
          [generateNextEvent settingsW opsW randW stateW.history
            stateW.trialNumber]
        trialNumber := stateW.trialNumber + 1
        score := { stateW.score with misses := stateW.score.misses +
          (missEligible settingsW stateW).length }
        respondedTo := stateW.respondedTo
        totalMatches := bumpMatches stateW.totalMatches
          (generateNextEvent settingsW opsW randW stateW.history
            stateW.trialNumber) } :=
  ⟨by decide,
    (tick_resolves_misses_before_generation settingsW opsW randW stateW
      rfl).2.2.2 (by decide)⟩

lemma generateNextEvent_isMatch_of_noActive (s : Settings) (ops : RealOps)
    (rand : TrialRand) (history : List NBackEvent) (trialNumber : ℕ)
    (hact : activeModalities s = []) :
    (generateNextEvent s ops rand history trialNumber).isMatch =
      MatchFlags.allFalse := by
  unfold generateNextEvent
  dsimp only
  rw [hact]
  split
  · split <;> rfl
  · rfl

/-- Claim C8 counterexample: the engine itself does not refuse a
zero-modality configuration — on the concrete all-disabled settings the
scheduler tick happily produces the next trial state instead of refusing
to run. -/
theorem engine_runs_with_zero_modalities :
    allModalitiesDisabled settingsAllOff = true ∧
    (runTrial settingsAllOff opsW randW stateInit).isNext = true := by
  constructor
  · decide
  · decide

/-- Claim C8 (amended): only the settings save path rejects a zero-modality
configuration; the engine performs no such check — with every modality
disabled the active list is empty and each tick below the trial budget still
generates and appends a trial, in which no modality can ever be a match. -/
theorem zero_modalities_rejected_only_at_save (s : Settings) (ops : RealOps)
    (rand : TrialRand) (st : GameSt)
    (hall : allModalitiesDisabled s = true) :
    handleSave s = none ∧
    activeModalities s = [] ∧
    (st.trialNumber < s.totalTrials →
      ∃ st1, runTrial s ops rand st = .next st1 ∧
        st1.history = st.history ++
          [generateNextEvent s ops rand st.history st.trialNumber] ∧
        (generateNextEvent s ops rand st.history st.trialNumber).isMatch =
          MatchFlags.allFalse) := by
  have hflags : s.spatialEnabled = false ∧ s.audioEnabled = false ∧
      s.colorEnabled = false ∧ s.shapeEnabled = false := by
    unfold allModalitiesDisabled at hall
    simp only [Bool.and_eq_true, Bool.not_eq_true'] at hall
    exact ⟨hall.1.1.1, hall.1.1.2, hall.1.2, hall.2⟩
  have hact : activeModalities s = [] := by
    simp [activeModalities, hflags.1, hflags.2.1, hflags.2.2.1, hflags.2.2.2]
  refine ⟨?_, hact, ?_⟩
  · have hall1 : (!s.spatialEnabled && !s.audioEnabled && !s.colorEnabled &&
        !s.shapeEnabled) = true := hall
    unfold handleSave
    rw [if_pos hall1]
  · intro hlt
    refine ⟨{ st with
        score := { st.score with misses := st.score.misses +
          (if s.feedbackEnabled then missEligible s st else []).length }
        history := st.history ++
          [generateNextEvent s ops rand st.history st.trialNumber]
        trialNumber := st.trialNumber + 1
        totalMatches := bumpMatches st.totalMatches
          (generateNextEvent s ops rand st.history st.trialNumber) },
      ?_, rfl, generateNextEvent_isMatch_of_noActive s ops rand st.history
        st.trialNumber hact⟩
    unfold runTrial
    dsimp only
    rw [if_neg (not_le.mpr hlt)]

/-- Evaluation witness for claim C8 (amended): at the concrete all-disabled
configuration the save path refuses, the active list is empty, and the
first tick still appends an all-foil trial. -/
theorem zero_modalities_rejected_only_at_save_witness :
    handleSave settingsAllOff = none ∧
    activeModalities settingsAllOff = [] ∧
    (∃ st1, runTrial settingsAllOff opsW randW stateInit = .next st1 ∧
      st1.history = stateInit.history ++
        [generateNextEvent settingsAllOff opsW randW stateInit.history
          stateInit.trialNumber] ∧
      (generateNextEvent settingsAllOff opsW randW stateInit.history
        stateInit.trialNumber).isMatch = MatchFlags.allFalse) := by
  obtain ⟨h1, h2, h3⟩ := zero_modalities_rejected_only_at_save settingsAllOff
    opsW randW stateInit (by decide)
  exact ⟨h1, h2, h3 (by decide)⟩

lemma Hues3.get_set_self (h : Hues3) (i : Fin 3) (v : ℚ) :
    (h.set i v).get i = v := by
  fin_cases i <;> rfl

lemma Hues3.get_set_other (h : Hues3) (i j : Fin 3) (v : ℚ) (hij : j ≠ i) :
    (h.set i v).get j = h.get j := by
  fin_cases i <;> fin_cases j <;> first | rfl | exact absurd rfl hij

lemma Hues3.set_comm (h : Hues3) (i j : Fin 3) (hij : i ≠ j) (a b : ℚ) :
    (h.set i a).set j b = (h.set j b).set i a := by
  fin_cases i <;> fin_cases j <;> first | exact absurd rfl hij | rfl

lemma Hues3.sum_set_two (h : Hues3) (i j : Fin 3) (hij : i ≠ j) (a b : ℚ) :
    ((h.set i a).set j b).sum = h.sum - h.get i - h.get j + a + b := by
  fin_cases i <;> fin_cases j <;>
    first
      | exact absurd rfl hij
      | (dsimp only [Hues3.set, Hues3.sum, Hues3.get]; ring)

lemma colorLureGame_raw (h : Hues3) (t : ℚ) (d : Bool) (p1 : Fin 3)
    (p2 : Fin 2) :
    ∃ i j : Fin 3, i ≠ j ∧ colorLureGame h t d p1 p2 =
      (h.set i (jsMod (h.get i + (if d then t else -t) + 360) 360)).set j
        (jsMod (h.get j - (if d then t else -t) + 360) 360) := by
  fin_cases p1 <;> fin_cases p2 <;>
    first
      | exact ⟨0, 1, by decide, rfl⟩
      | exact ⟨0, 2, by decide, rfl⟩
      | exact ⟨1, 0, by decide, rfl⟩
      | exact ⟨1, 2, by decide, rfl⟩
      | exact ⟨2, 0, by decide, rfl⟩
      | exact ⟨2, 1, by decide, rfl⟩

lemma colorLureGame_form (h : Hues3) (t : ℚ) (d : Bool) (p1 : Fin 3)
    (p2 : Fin 2) :
    ∃ i j : Fin 3, i ≠ j ∧ colorLureGame h t d p1 p2 =
      (h.set i (jsMod (h.get i + t + 360) 360)).set j
        (jsMod (h.get j - t + 360) 360) := by
  obtain ⟨i, j, hij, heq⟩ := colorLureGame_raw h t d p1 p2
  cases d
  · refine ⟨j, i, hij.symm, ?_⟩
    rw [heq, Hues3.set_comm _ _ _ hij]
    simp only [Bool.false_eq_true, if_false]
    rw [sub_neg_eq_add, ← sub_eq_add_neg]
  · exact ⟨i, j, hij, heq⟩

lemma jsMod_as_sub (a : ℚ) : jsMod a 360 = a - 360 * (ratTrunc (a / 360) : ℚ) :=
  rfl

/-- Claim C9 counterexample: with the hue triple (359, 100, 200) and
threshold 2 the perturbed sum drops by a full 360, so the mean hue changes
by -120 — which is not a multiple of 360.  The claim that the mean hue is
preserved modulo 360 is therefore false; only the sum is (the mean is
preserved modulo 120). -/
theorem hue_lure_mean_shift_not_mod360 :
    (colorLureGame ⟨359, 100, 200⟩ 2 true 0 0).sum / 3 -
        (Hues3.sum ⟨359, 100, 200⟩) / 3 = -120 ∧
    ¬ ∃ k : ℤ, (-120 : ℚ) = 360 * k := by
  constructor
  · have hred : colorLureGame ⟨359, 100, 200⟩ 2 true 0 0 =
        ⟨jsMod (359 + 2 + 360) 360, jsMod (100 - 2 + 360) 360, 200⟩ := rfl
    have e1 : jsMod (359 + 2 + 360) 360 = (1 : ℚ) := by
      unfold jsMod ratTrunc
      rw [if_pos (by norm_num)]
      rw [ratFloor_eq_of _ 2 (by norm_num) (by norm_num)]
      norm_num
    have e2 : jsMod (100 - 2 + 360) 360 = (98 : ℚ) := by
      unfold jsMod ratTrunc
      rw [if_pos (by norm_num)]
      rw [ratFloor_eq_of _ 1 (by norm_num) (by norm_num)]
      norm_num
    rw [hred]
    simp only [Hues3.sum]
    rw [e1, e2]
    norm_num
  · rintro ⟨k, hk⟩
    have h3 : (1080 : ℚ) * (k : ℚ) = -360 := by linarith
    have h4 : (1080 : ℤ) * k = -360 := by exact_mod_cast h3
    omega

/-- Claim C9 (amended): for every hue triple, threshold, direction and
index draw, the composite-hue lure shifts exactly two distinct slots — one
by +threshold and one by -threshold, each reduced by the JavaScript
(value + 360) % 360 — leaving the third slot unchanged, so the sum of the
three hues is preserved modulo 360 and hence the mean hue modulo 120 (not
modulo 360); the fixed-slot calibration variant does the same on slots 1
and 2. -/
theorem hue_lure_shifts_two_slots_sum_preserved (h : Hues3) (t : ℚ)
    (d : Bool) (p1 : Fin 3) (p2 : Fin 2) :
    (∃ i j : Fin 3, i ≠ j ∧
      (colorLureGame h t d p1 p2).get i = jsMod (h.get i + t + 360) 360 ∧
      (colorLureGame h t d p1 p2).get j = jsMod (h.get j - t + 360) 360 ∧
      (∀ l, l ≠ i → l ≠ j → (colorLureGame h t d p1 p2).get l = h.get l)) ∧
    (∃ k : ℤ, (colorLureGame h t d p1 p2).sum - h.sum = 360 * k) ∧
    (∃ k : ℤ, (colorLureGame h t d p1 p2).sum / 3 - h.sum / 3 = 120 * k) ∧
    (colorLureCalib h t).h1 = jsMod (h.h1 + t + 360) 360 ∧
    (colorLureCalib h t).h2 = jsMod (h.h2 - t + 360) 360 ∧
    (colorLureCalib h t).h0 = h.h0 ∧
    (∃ k : ℤ, (colorLureCalib h t).sum - h.sum = 360 * k) := by
  obtain ⟨i, j, hij, heq⟩ := colorLureGame_form h t d p1 p2
  have hsum : (colorLureGame h t d p1 p2).sum = h.sum - h.get i - h.get j +
      jsMod (h.get i + t + 360) 360 + jsMod (h.get j - t + 360) 360 := by
    rw [heq, Hues3.sum_set_two _ _ _ hij]
  have hk360 : (colorLureGame h t d p1 p2).sum - h.sum = 360 *
      ((2 - ratTrunc ((h.get i + t + 360) / 360) -
        ratTrunc ((h.get j - t + 360) / 360) : ℤ) : ℚ) := by
    rw [hsum, jsMod_as_sub, jsMod_as_sub]
    push_cast
    ring
  refine ⟨⟨i, j, hij, ?_, ?_, ?_⟩, ?_, ?_, rfl, rfl, rfl, ?_⟩
  · rw [heq, Hues3.get_set_other _ _ _ _ hij, Hues3.get_set_self]
  · rw [heq, Hues3.get_set_self]
  · intro l hli hlj
    rw [heq, Hues3.get_set_other _ _ _ _ hlj, Hues3.get_set_other _ _ _ _ hli]
  · exact ⟨_, hk360⟩
  · refine ⟨2 - ratTrunc ((h.get i + t + 360) / 360) -
      ratTrunc ((h.get j - t + 360) / 360), ?_⟩
    have hdiv : ((colorLureGame h t d p1 p2).sum - h.sum) / 3 = 360 *
        ((2 - ratTrunc ((h.get i + t + 360) / 360) -
          ratTrunc ((h.get j - t + 360) / 360) : ℤ) : ℚ) / 3 := by
      rw [hk360]
    field_simp at hdiv
    linarith [hdiv]
  · refine ⟨2 - ratTrunc ((h.h1 + t + 360) / 360) -
      ratTrunc ((h.h2 - t + 360) / 360), ?_⟩
    unfold colorLureCalib Hues3.sum
    dsimp only
    rw [jsMod_as_sub, jsMod_as_sub]
    push_cast
    ring

end NBack
